import Mathlib

/-!
Shallow embedding of the Pakistan AR Guide component (src/src/App.jsx, with the
second source variant src/unnamed/part_000 modelled where the two differ).
The component is a scan/recognize/narrate state machine: a camera session,
a repeating 2000 ms scan timer, a Teachable Machine classifier adapter, a
static site catalog, and a speech-synthesis narration service.

Machine conventions: JavaScript numbers used as probabilities are modelled as
rationals (ℚ); JavaScript `String.prototype.toLowerCase` is modelled as a
character-wise map with `Char.toLower` (the labels involved are ASCII);
DOM / browser handles (media stream, video element, timer ids) are modelled as
`Option Nat` fields of an explicit session state record.
-/

namespace ARGuide

/-- Model of JavaScript `s.toLowerCase()` (App.jsx line 205: the classifier
label is lowercased before being stored; line 231: lowercased again before the
catalog lookup). -/
def jsToLower (s : String) : String :=
  String.mk (s.data.map Char.toLower)

/-- `Char.toLower` only rewrites the basic latin uppercase range 65..90 to
97..122, so applying it twice is the same as applying it once. -/
theorem charToLower_idem (c : Char) : c.toLower.toLower = c.toLower := by
  simp only [Char.toLower]
  by_cases h : c.toNat ≥ 65 ∧ c.toNat ≤ 90
  · have hv : (c.toNat + 32).isValidChar := Or.inl (by omega)
    have ht : (Char.ofNat (c.toNat + 32)).toNat = c.toNat + 32 := by
      rw [Char.ofNat, dif_pos hv]; rfl
    rw [if_pos h, if_neg]
    intro hcon
    rw [ht] at hcon
    omega
  · rw [if_neg h, if_neg h]

theorem mapToLower_idem (l : List Char) :
    (l.map Char.toLower).map Char.toLower = l.map Char.toLower := by
  induction l with
  | nil => rfl
  | cons c t ih => simp [charToLower_idem, ih]

theorem jsToLower_idem (s : String) : jsToLower (jsToLower s) = jsToLower s :=
  congrArg String.mk (mapToLower_idem s.data)

/-- Model of the catalog-key normalization in the scan loop (App.jsx line 231):
`result.place.toLowerCase().replace(/[^a-z]/g, '')` — lowercase, then delete
every character outside `a`..`z` (`Char.isLower` is exactly the ASCII range
97..122). -/
def normalizeKey (s : String) : String :=
  String.mk ((jsToLower s).data.filter Char.isLower)

theorem normalizeKey_jsToLower (s : String) :
    normalizeKey (jsToLower s) = normalizeKey s := by
  unfold normalizeKey
  rw [jsToLower_idem]

/-- One entry of the ranked prediction list returned by
`modelRef.current.predict` (the Classifier Adapter's classify call). -/
structure Prediction where
  className : String
  probability : ℚ
deriving DecidableEq

/-- Value returned by a successful `recognizePlace` (App.jsx lines 211-214):
the stored class is the lowercased label of the best prediction, or `none`
when no prediction ever exceeded the running maximum (JavaScript `null`). -/
structure RecogResult where
  place : Option String
  confidence : ℚ
deriving DecidableEq

/-- Outcome of one `model.predict` call: a ranked list, or a thrown
ClassifyError (caught at App.jsx lines 218-221). -/
inductive ClassifyOutcome where
  | ok (prediction : List Prediction)
  | err
deriving DecidableEq

/-- The `prediction.forEach` fold of `recognizePlace` (App.jsx lines 199-207):
running pair of `maxConfidence` (initially 0) and `recognizedClass`
(initially `null`); an entry replaces the pair only when its probability
strictly exceeds the running maximum. -/
def findBest (prediction : List Prediction) : ℚ × Option String :=
  prediction.foldl
    (fun acc pred =>
      if acc.1 < pred.probability then
        (pred.probability, some (jsToLower pred.className))
      else acc)
    (0, none)

/-- The confidence threshold `0.7` (App.jsx lines 210 and 230). -/
def confidenceThreshold : ℚ := 7 / 10

/-- `recognizePlace` (App.jsx lines 192-222): `null` when the model or the
video element is not bound, `null` when predict throws (the catch swallows the
error), `null` when the best confidence is at most 0.7, and otherwise the best
class with its confidence. -/
def recognizePlace (modelLoaded videoBound : Bool) (outcome : ClassifyOutcome) :
    Option RecogResult :=
  if !modelLoaded || !videoBound then none
  else
    match outcome with
    | .err => none
    | .ok prediction =>
      let best := findBest prediction
      if confidenceThreshold < best.1 then some ⟨best.2, best.1⟩ else none

/-- One AR marker of a catalog entry (`markers` arrays, App.jsx lines 36-40,
54-58, 72-76). -/
structure Marker where
  id : Nat
  label : String
  x : Nat
  y : Nat
deriving DecidableEq

/-- One entry of the static site catalog `placesDatabase`
(App.jsx lines 23-78). -/
structure SiteRecord where
  name : String
  location : String
  period : String
  description : String
  narration : String
  facts : List String
  markers : List Marker
deriving DecidableEq

/-- The `taxila` entry of `placesDatabase` (App.jsx lines 24-41). -/
def taxila : SiteRecord where
  name := "Taxila"
  location := "Rawalpindi, Punjab"
  period := "6th century BCE to 5th century CE"
  description := "Taxila is one of the most important archaeological sites in Asia. It was a renowned center of learning and Buddhist culture, attracting students from across the ancient world."
  narration := "Welcome to Taxila, one of the world's oldest universities. This ancient city flourished for over a thousand years as a center of Buddhist learning. You are standing in a place where scholars from China, Greece, and Persia once gathered to study philosophy, medicine, and arts. The ruins around you date back to the Gandhara civilization."
  facts := ["UNESCO World Heritage Site since 1980",
    "Alexander the Great visited in 326 BCE",
    "Home to one of the earliest universities",
    "Major center of Gandhara art and culture"]
  markers := [⟨1, "Dharmarajika Stupa", 30, 40⟩,
    ⟨2, "Jaulian Monastery", 60, 35⟩,
    ⟨3, "Sirkap City Ruins", 45, 60⟩]

/-- The `badshahi` entry of `placesDatabase` (App.jsx lines 42-59). -/
def badshahi : SiteRecord where
  name := "Badshahi Mosque"
  location := "Lahore, Punjab"
  period := "Built in 1671-1673 CE"
  description := "The Badshahi Mosque is one of the largest mosques in the world and a stunning example of Mughal architecture."
  narration := "You are witnessing the magnificent Badshahi Mosque, built by the sixth Mughal Emperor Aurangzeb. This architectural masterpiece can accommodate 100,000 worshippers. Notice the intricate red sandstone construction and the three massive marble domes. The mosque represents the pinnacle of Mughal architectural achievement in the Indian subcontinent."
  facts := ["Built by Emperor Aurangzeb in 1671",
    "Can hold 100,000 worshippers",
    "Made of red sandstone with marble domes",
    "Second largest mosque in Pakistan"]
  markers := [⟨1, "Main Prayer Hall", 50, 45⟩,
    ⟨2, "Central Dome", 50, 25⟩,
    ⟨3, "Minarets", 25, 30⟩]

/-- The `mohenjodaro` entry of `placesDatabase` (App.jsx lines 60-77). -/
def mohenjodaro : SiteRecord where
  name := "Mohenjo-daro"
  location := "Larkana, Sindh"
  period := "2500-1900 BCE"
  description := "Mohenjo-daro was one of the largest cities of the ancient Indus Valley Civilization, showcasing advanced urban planning."
  narration := "Welcome to Mohenjo-daro, meaning 'Mound of the Dead'. You are standing in one of the world's earliest major cities, built around 2500 BCE. This civilization had advanced drainage systems, standardized bricks, and sophisticated urban planning that was unmatched for its time. The Great Bath you see was likely used for ritual purposes."
  facts := ["UNESCO World Heritage Site",
    "One of the earliest urban settlements",
    "Advanced drainage and water systems",
    "Mysterious decline around 1900 BCE"]
  markers := [⟨1, "Great Bath", 40, 50⟩,
    ⟨2, "Granary", 60, 40⟩,
    ⟨3, "Assembly Hall", 35, 65⟩]

/-- Property lookup `placesDatabase[placeKey]` on the three-key object literal
(App.jsx lines 23-78 and 232): defined exactly on the keys `taxila`,
`badshahi`, `mohenjodaro`. -/
def placesDatabase (key : String) : Option SiteRecord :=
  if key = "taxila" then some taxila
  else if key = "badshahi" then some badshahi
  else if key = "mohenjodaro" then some mohenjodaro
  else none

/-- The recognized entry stored by `setRecognizedPlace({ ...place, key: placeKey })`
(App.jsx line 240). -/
structure RecognizedEntry where
  site : SiteRecord
  key : String
deriving DecidableEq

/-- Session state of the component: the React state variables plus the refs
(App.jsx lines 6-17). `timerLive` records whether the interval created by
`setInterval` is still scheduled, while `scanIntervalRef` is the stored timer
id — `stopCamera` and the recognizing tick call `clearInterval` without
nulling the ref, so the two are tracked separately. `speechQueue` is the
utterance queue of `window.speechSynthesis`, `speechSupported` the result of
the `'speechSynthesis' in window` capability test. -/
structure AppState where
  isScanning : Bool
  recognizedPlace : Option RecognizedEntry
  isSpeaking : Bool
  confidence : ℚ
  modelLoaded : Bool
  videoBound : Bool
  videoSrcObject : Option Nat
  streamRef : Option Nat
  scanIntervalRef : Option Nat
  timerLive : Bool
  speechSupported : Bool
  speechQueue : List String
deriving DecidableEq

/-- `stopSpeaking` (App.jsx lines 269-274): when the platform has speech
synthesis, `speechSynthesis.cancel()` empties the utterance queue and
`setIsSpeaking(false)` clears the speaking flag; otherwise nothing happens. -/
def stopSpeaking (s : AppState) : AppState :=
  if s.speechSupported then { s with speechQueue := [], isSpeaking := false }
  else s

/-- `speakNarration` (App.jsx lines 250-266): when speech is supported, first
`stopSpeaking()` (cancel preempts whatever is queued or playing), then
`speechSynthesis.speak(utterance)` enqueues the new utterance; when speech is
unsupported only an alert is shown, with no state change. -/
def speakNarration (text : String) (s : AppState) : AppState :=
  if s.speechSupported then
    let s1 := stopSpeaking s
    { s1 with speechQueue := s1.speechQueue ++ [text] }
  else s

/-- `stopCamera` (App.jsx lines 174-189): stop and release the stream if one
is held, clear the video element's srcObject if the element is mounted,
`clearInterval` if a timer id was stored (the ref itself is left in place),
then clear the scanning flag, the recognized record and the confidence, and
`stopSpeaking()`. -/
def stopCamera (s : AppState) : AppState :=
  let s1 := if s.streamRef.isSome then { s with streamRef := none } else s
  let s2 := if s1.videoBound then { s1 with videoSrcObject := none } else s1
  let s3 := if s2.scanIntervalRef.isSome then { s2 with timerLive := false } else s2
  stopSpeaking { s3 with isScanning := false, recognizedPlace := none, confidence := 0 }

/-- `startScanning` (App.jsx line 226): `scanIntervalRef.current = setInterval(...)`
stores a fresh live timer id. -/
def startScanning (timerId : Nat) (s : AppState) : AppState :=
  { s with scanIntervalRef := some timerId, timerLive := true }

/-- Body of the interval callback of `startScanning` (App.jsx lines 226-246),
run once per 2000 ms tick with the outcome of this tick's classify call:
skip everything if a place is already recognized; otherwise take
`recognizePlace`'s result, and on a confident result normalize the stored
class to a catalog key and look it up; on a hit, `clearInterval` (timer id
ref kept), record the recognized place and confidence, and speak the site's
narration; in every other case leave the state untouched. -/
def scanTick (s : AppState) (outcome : ClassifyOutcome) : AppState :=
  if s.recognizedPlace.isSome then s
  else
    match recognizePlace s.modelLoaded s.videoBound outcome with
    | none => s
    | some result =>
      if confidenceThreshold < result.confidence then
        match result.place with
        | none => s
        | some cls =>
          let placeKey := normalizeKey cls
          match placesDatabase placeKey with
          | none => s
          | some place =>
            let s1 := if s.scanIntervalRef.isSome then { s with timerLive := false } else s
            speakNarration place.narration
              { s1 with recognizedPlace := some ⟨place, placeKey⟩,
                        confidence := result.confidence }
      else s

/-- A tick of the repeating timer only runs while the interval is scheduled;
after `clearInterval` no further callback fires. -/
def step (s : AppState) (outcome : ClassifyOutcome) : AppState :=
  if s.timerLive then scanTick s outcome else s

/-- A whole stretch of the scan loop: one `step` per elapsed 2000 ms tick,
fed with that tick's classify outcome. -/
def run (s : AppState) (outcomes : List ClassifyOutcome) : AppState :=
  outcomes.foldl step s

/-- Whether a tick in state `s` reaches `modelRef.current.predict` (App.jsx
line 196): the timer must fire, the captured guard `!recognizedPlace`
(line 227) must pass, and `recognizePlace` must get past its null checks
(line 193). -/
def tickClassifies (s : AppState) : Bool :=
  s.timerLive && s.recognizedPlace.isNone && s.modelLoaded && s.videoBound

/-- Number of `classify` (`model.predict`) calls a stretch of the scan loop
performs. -/
def countClassifyCalls : AppState → List ClassifyOutcome → Nat
  | _, [] => 0
  | s, o :: os => (if tickClassifies s then 1 else 0) + countClassifyCalls (step s o) os

/-! Characterization of the `findBest` fold. -/

/-- The running maximum of the probabilities, started at `m`. -/
def maxFrom (m : ℚ) (prediction : List Prediction) : ℚ :=
  prediction.foldl (fun a p => max a p.probability) m

/-- The classifier's top probability over one ranked list (0 for an empty
list, matching the fold's initial `maxConfidence = 0`). -/
def topProbability (prediction : List Prediction) : ℚ :=
  maxFrom 0 prediction

/-- The label of the first prediction attaining the top probability — the
spec's selection rule (first encountered wins on ties). -/
def firstMaxLabel (prediction : List Prediction) : Option String :=
  (prediction.find? fun p => decide (p.probability = topProbability prediction)).map
    (fun p => p.className)

theorem le_maxFrom (m : ℚ) (l : List Prediction) : m ≤ maxFrom m l := by
  induction l generalizing m with
  | nil => exact le_refl m
  | cons p t ih =>
    exact le_trans (le_max_left m p.probability) (ih (max m p.probability))

/-- The first component of the `findBest` fold is the running maximum. -/
theorem findBest_fst_eq (l : List Prediction) (m : ℚ) (lab : Option String) :
    (l.foldl
      (fun acc pred =>
        if acc.1 < pred.probability then
          (pred.probability, some (jsToLower pred.className))
        else acc)
      (m, lab)).1 = maxFrom m l := by
  induction l generalizing m lab with
  | nil => rfl
  | cons p t ih =>
    by_cases h : m < p.probability
    · simp only [List.foldl_cons, if_pos h, maxFrom, List.foldl_cons,
        max_eq_right (le_of_lt h)]
      exact ih p.probability _
    · simp only [List.foldl_cons, if_neg h, maxFrom, List.foldl_cons,
        max_eq_left (le_of_not_lt h)]
      exact ih m lab

/-- When nothing in the list exceeds the starting maximum, the fold keeps the
starting label. -/
theorem findBest_snd_stay (l : List Prediction) (m : ℚ) (lab : Option String)
    (h : ¬ m < maxFrom m l) :
    (l.foldl
      (fun acc pred =>
        if acc.1 < pred.probability then
          (pred.probability, some (jsToLower pred.className))
        else acc)
      (m, lab)).2 = lab := by
  induction l generalizing m lab with
  | nil => rfl
  | cons p t ih =>
    have hm : maxFrom m (p :: t) = maxFrom (max m p.probability) t := rfl
    by_cases hp : m < p.probability
    · exfalso
      apply h
      rw [hm]
      exact lt_of_lt_of_le (lt_of_lt_of_le hp (le_max_right m p.probability))
        (le_maxFrom _ t)
    · have hmax : max m p.probability = m := max_eq_left (le_of_not_lt hp)
      rw [hm, hmax] at h
      simp only [List.foldl_cons, if_neg hp]
      exact ih m lab h

/-- When something in the list exceeds the starting maximum, the fold's label
is the lowercased class name of the first prediction attaining the final
maximum. -/
theorem findBest_snd_eq (l : List Prediction) (m : ℚ) (lab : Option String)
    (h : m < maxFrom m l) :
    (l.foldl
      (fun acc pred =>
        if acc.1 < pred.probability then
          (pred.probability, some (jsToLower pred.className))
        else acc)
      (m, lab)).2 =
      (l.find? fun p => decide (p.probability = maxFrom m l)).map
        (fun p => jsToLower p.className) := by
  induction l generalizing m lab with
  | nil => exact absurd h (lt_irrefl m)
  | cons p t ih =>
    have hm : maxFrom m (p :: t) = maxFrom (max m p.probability) t := rfl
    by_cases hp : m < p.probability
    · have hmax : max m p.probability = p.probability := max_eq_right (le_of_lt hp)
      rw [hm, hmax] at h ⊢
      by_cases h2 : p.probability < maxFrom p.probability t
      · have hne : ¬ p.probability = maxFrom p.probability t := ne_of_lt h2
        rw [List.find?_cons_of_neg _ (by simpa using hne)]
        simp only [List.foldl_cons, if_pos hp]
        exact ih p.probability _ h2
      · have heq : p.probability = maxFrom p.probability t :=
          le_antisymm (le_maxFrom _ t) (le_of_not_lt h2)
        rw [List.find?_cons_of_pos _ (by simpa using heq)]
        simp only [List.foldl_cons, if_pos hp, Option.map_some]
        exact findBest_snd_stay t p.probability _ h2
    · have hmax : max m p.probability = m := max_eq_left (le_of_not_lt hp)
      rw [hm, hmax] at h ⊢
      have hne : ¬ p.probability = maxFrom m t := by
        intro he
        have hlt : p.probability < maxFrom m t := lt_of_le_of_lt (le_of_not_lt hp) h
        rw [he] at hlt
        exact lt_irrefl _ hlt
      rw [List.find?_cons_of_neg _ (by simpa using hne)]
      simp only [List.foldl_cons, if_neg hp]
      exact ih m lab h

/-- When the list's starting maximum is exceeded, some prediction attains the
final maximum. -/
theorem maxFrom_attained (l : List Prediction) (m : ℚ) (h : m < maxFrom m l) :
    ∃ p ∈ l, p.probability = maxFrom m l := by
  induction l generalizing m with
  | nil => exact absurd h (lt_irrefl m)
  | cons p t ih =>
    have hm : maxFrom m (p :: t) = maxFrom (max m p.probability) t := rfl
    by_cases h2 : max m p.probability < maxFrom (max m p.probability) t
    · obtain ⟨q, hq, hq2⟩ := ih (max m p.probability) h2
      exact ⟨q, List.mem_cons_of_mem p hq, by rw [hm]; exact hq2⟩
    · have heq : max m p.probability = maxFrom (max m p.probability) t :=
        le_antisymm (le_maxFrom _ t) (le_of_not_lt h2)
      by_cases hp : m < p.probability
      · refine ⟨p, List.mem_cons_self p t, ?_⟩
        rw [hm, ← heq, max_eq_right (le_of_lt hp)]
      · exfalso
        rw [hm, ← heq, max_eq_left (le_of_not_lt hp)] at h
        exact lt_irrefl m h

theorem findBest_fst (l : List Prediction) : (findBest l).1 = topProbability l :=
  findBest_fst_eq l 0 none

theorem findBest_snd (l : List Prediction) (hpos : 0 < topProbability l) :
    (findBest l).2 = (firstMaxLabel l).map jsToLower := by
  have h := findBest_snd_eq l 0 none hpos
  unfold findBest
  rw [h]
  unfold firstMaxLabel topProbability
  rw [Option.map_map]
  rfl

theorem firstMaxLabel_isSome (l : List Prediction) (hpos : 0 < topProbability l) :
    ∃ c, firstMaxLabel l = some c := by
  obtain ⟨p, hp, hpe⟩ := maxFrom_attained l 0 hpos
  have hfind : (l.find? fun q => decide (q.probability = topProbability l)).isSome := by
    rw [List.find?_isSome]
    exact ⟨p, hp, by simpa [topProbability] using hpe⟩
  obtain ⟨q, hq⟩ := Option.isSome_iff_exists.mp hfind
  exact ⟨q.className, by unfold firstMaxLabel; rw [hq]; rfl⟩

/-! Projection lemmas: `speakNarration` and `stopSpeaking` only touch the
speech fields. -/

@[simp] theorem stopSpeaking_recognizedPlace (s : AppState) :
    (stopSpeaking s).recognizedPlace = s.recognizedPlace := by
  by_cases h : s.speechSupported <;> simp [stopSpeaking, h]

@[simp] theorem stopSpeaking_timerLive (s : AppState) :
    (stopSpeaking s).timerLive = s.timerLive := by
  by_cases h : s.speechSupported <;> simp [stopSpeaking, h]

@[simp] theorem stopSpeaking_scanIntervalRef (s : AppState) :
    (stopSpeaking s).scanIntervalRef = s.scanIntervalRef := by
  by_cases h : s.speechSupported <;> simp [stopSpeaking, h]

@[simp] theorem stopSpeaking_speechSupported (s : AppState) :
    (stopSpeaking s).speechSupported = s.speechSupported := by
  by_cases h : s.speechSupported <;> simp [stopSpeaking, h]

@[simp] theorem speakNarration_recognizedPlace (t : String) (s : AppState) :
    (speakNarration t s).recognizedPlace = s.recognizedPlace := by
  by_cases h : s.speechSupported <;> simp [speakNarration, stopSpeaking, h]

@[simp] theorem speakNarration_timerLive (t : String) (s : AppState) :
    (speakNarration t s).timerLive = s.timerLive := by
  by_cases h : s.speechSupported <;> simp [speakNarration, stopSpeaking, h]

@[simp] theorem speakNarration_scanIntervalRef (t : String) (s : AppState) :
    (speakNarration t s).scanIntervalRef = s.scanIntervalRef := by
  by_cases h : s.speechSupported <;> simp [speakNarration, stopSpeaking, h]

@[simp] theorem speakNarration_speechSupported (t : String) (s : AppState) :
    (speakNarration t s).speechSupported = s.speechSupported := by
  by_cases h : s.speechSupported <;> simp [speakNarration, stopSpeaking, h]

@[simp] theorem speakNarration_isScanning (t : String) (s : AppState) :
    (speakNarration t s).isScanning = s.isScanning := by
  by_cases h : s.speechSupported <;> simp [speakNarration, stopSpeaking, h]

@[simp] theorem speakNarration_confidence (t : String) (s : AppState) :
    (speakNarration t s).confidence = s.confidence := by
  by_cases h : s.speechSupported <;> simp [speakNarration, stopSpeaking, h]

/-- C5, counterexample: the claim "for every non-empty prediction list the
scan loop selects the single highest-probability label (first encountered
wins on ties)" fails on the list `[("x", 0)]`: the fold starts with
`maxConfidence = 0` and only updates on a strict increase, so with every
probability equal to 0 the code selects no label at all, while the first
(and only) prediction "x" attains the top probability. -/
theorem c5_counterexample :
    ¬ ((findBest [⟨"x", 0⟩]).2 = (firstMaxLabel [⟨"x", 0⟩]).map jsToLower) := by
  norm_num [findBest, firstMaxLabel, topProbability, maxFrom, List.find?]
  exact fun h => Option.noConfusion h

/-- C5 (amended): for every prediction list whose top probability is strictly
positive, the scan loop's fold selects exactly the first prediction attaining
the top probability — its confidence is the top probability and its stored
class is that prediction's label, lowercased; on ties the first-encountered
label in list order wins because only a strict increase updates the fold. -/
theorem c5_selection (preds : List Prediction) (hpos : 0 < topProbability preds) :
    (findBest preds).1 = topProbability preds ∧
    (findBest preds).2 = (firstMaxLabel preds).map jsToLower :=
  ⟨findBest_fst preds, findBest_snd preds hpos⟩

theorem c5_selection_witness :
    (0 : ℚ) < topProbability [⟨"A", 1/2⟩, ⟨"B", 1/2⟩] ∧
    ((findBest [⟨"A", 1/2⟩, ⟨"B", 1/2⟩]).1 = topProbability [⟨"A", 1/2⟩, ⟨"B", 1/2⟩] ∧
      (findBest [⟨"A", 1/2⟩, ⟨"B", 1/2⟩]).2 =
        (firstMaxLabel [⟨"A", 1/2⟩, ⟨"B", 1/2⟩]).map jsToLower) ∧
    (findBest [⟨"A", 1/2⟩, ⟨"B", 1/2⟩]).2 = some "a" :=
  ⟨by norm_num [topProbability, maxFrom],
    c5_selection [⟨"A", 1/2⟩, ⟨"B", 1/2⟩] (by norm_num [topProbability, maxFrom]),
    by norm_num [findBest]; decide⟩

theorem recognizePlace_err (m v : Bool) : recognizePlace m v .err = none := by
  cases m <;> cases v <;> rfl

theorem recognizePlace_ok (preds : List Prediction) :
    recognizePlace true true (.ok preds) =
      if confidenceThreshold < (findBest preds).1 then
        some ⟨(findBest preds).2, (findBest preds).1⟩
      else none := rfl

theorem zero_lt_confidenceThreshold : (0 : ℚ) < confidenceThreshold := by
  norm_num [confidenceThreshold]

/-- C10: `recognizePlace` is total and safe to call at any time: with the
model not yet loaded or the video element not bound it returns `null`
(instead of throwing), a thrown predict error is caught and turned into
`null`, and every non-`null` result carries a confidence strictly above 0.7
together with a class string that is already lowercased. -/
theorem c10_recognizePlace_total :
    (∀ v o, recognizePlace false v o = none) ∧
    (∀ m o, recognizePlace m false o = none) ∧
    (∀ m v o r, recognizePlace m v o = some r →
      confidenceThreshold < r.confidence ∧ ∃ c, r.place = some c ∧ jsToLower c = c) := by
  refine ⟨fun v o => rfl, fun m o => by cases m <;> rfl, ?_⟩
  intro m v o r h
  cases m with
  | false => exact absurd h (by simp [recognizePlace])
  | true =>
    cases v with
    | false => exact absurd h (by simp [recognizePlace])
    | true =>
      cases o with
      | err => rw [recognizePlace_err] at h; exact absurd h (by simp)
      | ok preds =>
        rw [recognizePlace_ok] at h
        by_cases hlt : confidenceThreshold < (findBest preds).1
        · rw [if_pos hlt] at h
          obtain rfl : r = ⟨(findBest preds).2, (findBest preds).1⟩ :=
            (Option.some_inj.mp h).symm
          refine ⟨hlt, ?_⟩
          have hpos : 0 < topProbability preds := by
            rw [findBest_fst] at hlt
            exact lt_trans zero_lt_confidenceThreshold hlt
          obtain ⟨c0, hc0⟩ := firstMaxLabel_isSome preds hpos
          refine ⟨jsToLower c0, ?_, jsToLower_idem c0⟩
          show (findBest preds).2 = some (jsToLower c0)
          rw [findBest_snd preds hpos, hc0]
          rfl
        · rw [if_neg hlt] at h
          exact absurd h (by simp)

theorem c10_witness :
    confidenceThreshold <
        (RecogResult.mk (some "taxila") (9 / 10)).confidence ∧
      ∃ c, (RecogResult.mk (some "taxila") (9 / 10)).place = some c ∧ jsToLower c = c :=
  c10_recognizePlace_total.2.2 true true (.ok [⟨"Taxila", 9 / 10⟩])
    ⟨some "taxila", 9 / 10⟩
    (by rw [recognizePlace_ok]
        norm_num [findBest, confidenceThreshold]
        decide)

/-- C4: label normalization is lowercasing followed by deletion of every
non-alphabetic character: the label "Taxila " normalizes to the catalog key
"taxila" (a hit), "Badshahi-Mosque!!" normalizes to "badshahimosque" (a
miss), and the only keys of the catalog are "taxila", "badshahi" and
"mohenjodaro". -/
theorem c4_normalization :
    normalizeKey "Taxila " = "taxila" ∧
    (placesDatabase (normalizeKey "Taxila ")).isSome = true ∧
    normalizeKey "Badshahi-Mosque!!" = "badshahimosque" ∧
    placesDatabase (normalizeKey "Badshahi-Mosque!!") = none ∧
    ∀ k, (placesDatabase k).isSome = true ↔
      (k = "taxila" ∨ k = "badshahi" ∨ k = "mohenjodaro") := by
  refine ⟨by decide, by decide, by decide, by decide, ?_⟩
  intro k
  by_cases h1 : k = "taxila" <;> by_cases h2 : k = "badshahi" <;>
    by_cases h3 : k = "mohenjodaro" <;> simp [placesDatabase, h1, h2, h3]

/-- C1: for a scan tick fired while scanning and not yet recognized (with the
model loaded and the video bound, i.e. the tick's classify call actually
happened), the tick transitions to Recognized exactly when the top
probability strictly exceeds 0.7 and the normalized top label is a catalog
key; in every other case — sub-threshold top probability, catalog miss, or a
classify error — the state is left entirely unchanged. -/
theorem c1_tick_transition (s : AppState) (preds : List Prediction)
    (h0 : s.recognizedPlace = none) (hm : s.modelLoaded = true)
    (hv : s.videoBound = true) :
    ((scanTick s (.ok preds)).recognizedPlace ≠ none ↔
      (confidenceThreshold < topProbability preds ∧
        ∃ l, firstMaxLabel preds = some l ∧
          (placesDatabase (normalizeKey l)).isSome = true)) ∧
    (¬ (confidenceThreshold < topProbability preds ∧
        ∃ l, firstMaxLabel preds = some l ∧
          (placesDatabase (normalizeKey l)).isSome = true) →
      scanTick s (.ok preds) = s) ∧
    scanTick s .err = s := by
  have herr : scanTick s .err = s := by
    simp [scanTick, h0, recognizePlace_err]
  by_cases hlt : confidenceThreshold < topProbability preds
  · have hlt' : confidenceThreshold < (findBest preds).1 := by
      rw [findBest_fst]; exact hlt
    have hpos : 0 < topProbability preds := lt_trans zero_lt_confidenceThreshold hlt
    obtain ⟨c0, hc0⟩ := firstMaxLabel_isSome preds hpos
    have hsnd : (findBest preds).2 = some (jsToLower c0) := by
      rw [findBest_snd preds hpos, hc0]; rfl
    have hrp : recognizePlace s.modelLoaded s.videoBound (.ok preds) =
        some ⟨some (jsToLower c0), (findBest preds).1⟩ := by
      rw [hm, hv, recognizePlace_ok, if_pos hlt', hsnd]
    cases hdb : placesDatabase (normalizeKey c0) with
    | some pl =>
      have hrec : (scanTick s (.ok preds)).recognizedPlace =
          some ⟨pl, normalizeKey c0⟩ := by
        simp [scanTick, h0, hrp, if_pos hlt', normalizeKey_jsToLower, hdb]
      refine ⟨⟨fun _ => ⟨hlt, c0, hc0, by rw [hdb]; rfl⟩, fun _ => ?_⟩,
        fun hn => absurd ⟨hlt, c0, hc0, by rw [hdb]; rfl⟩ hn, herr⟩
      rw [hrec]
      simp
    | none =>
      have hfinal : scanTick s (.ok preds) = s := by
        simp [scanTick, h0, hrp, if_pos hlt', normalizeKey_jsToLower, hdb]
      refine ⟨⟨fun hne => absurd (by rw [hfinal]; exact h0) hne, ?_⟩,
        fun _ => hfinal, herr⟩
      rintro ⟨_, l, hl, hsome⟩
      rw [hc0] at hl
      obtain rfl : l = c0 := (Option.some_inj.mp hl).symm
      rw [hdb] at hsome
      exact absurd hsome (by simp)
  · have hrp : recognizePlace s.modelLoaded s.videoBound (.ok preds) = none := by
      rw [hm, hv, recognizePlace_ok, if_neg (by rw [findBest_fst]; exact hlt)]
    have hfinal : scanTick s (.ok preds) = s := by
      simp [scanTick, h0, hrp]
    refine ⟨⟨fun hne => absurd (by rw [hfinal]; exact h0) hne,
      fun hcond => absurd hcond.1 hlt⟩, fun _ => hfinal, herr⟩

/-- A fully started session: model loaded, camera stream acquired and bound,
scan timer live with its id stored, nothing recognized yet, speech supported
and idle. Used as the concrete input of several witnesses. -/
def loadedState : AppState where
  isScanning := true
  recognizedPlace := none
  isSpeaking := false
  confidence := 0
  modelLoaded := true
  videoBound := true
  videoSrcObject := some 0
  streamRef := some 0
  scanIntervalRef := some 1
  timerLive := true
  speechSupported := true
  speechQueue := []

theorem c1_witness :
    ((scanTick loadedState (.ok [⟨"Taxila", 9 / 10⟩])).recognizedPlace ≠ none ↔
      (confidenceThreshold < topProbability [⟨"Taxila", 9 / 10⟩] ∧
        ∃ l, firstMaxLabel [⟨"Taxila", 9 / 10⟩] = some l ∧
          (placesDatabase (normalizeKey l)).isSome = true)) ∧
    (¬ (confidenceThreshold < topProbability [⟨"Taxila", 9 / 10⟩] ∧
        ∃ l, firstMaxLabel [⟨"Taxila", 9 / 10⟩] = some l ∧
          (placesDatabase (normalizeKey l)).isSome = true) →
      scanTick loadedState (.ok [⟨"Taxila", 9 / 10⟩]) = loadedState) ∧
    scanTick loadedState .err = loadedState :=
  c1_tick_transition loadedState [⟨"Taxila", 9 / 10⟩] rfl rfl rfl

theorem scanTick_recognized (s : AppState) (o : ClassifyOutcome)
    (r : RecognizedEntry) (h : s.recognizedPlace = some r) : scanTick s o = s := by
  simp [scanTick, h]

theorem step_recognized (s : AppState) (o : ClassifyOutcome)
    (r : RecognizedEntry) (h : s.recognizedPlace = some r) : step s o = s := by
  unfold step
  rw [scanTick_recognized s o r h]
  split <;> rfl

theorem run_recognized (s : AppState) (r : RecognizedEntry)
    (h : s.recognizedPlace = some r) : ∀ os, run s os = s
  | [] => rfl
  | o :: os => by
    show (o :: os).foldl step s = s
    rw [List.foldl_cons, step_recognized s o r h]
    exact run_recognized s r h os

theorem tickClassifies_recognized (s : AppState) (r : RecognizedEntry)
    (h : s.recognizedPlace = some r) : tickClassifies s = false := by
  simp [tickClassifies, h]

theorem countClassifyCalls_recognized (s : AppState) (r : RecognizedEntry)
    (h : s.recognizedPlace = some r) : ∀ os, countClassifyCalls s os = 0
  | [] => rfl
  | o :: os => by
    show (if tickClassifies s then 1 else 0) + countClassifyCalls (step s o) os = 0
    rw [tickClassifies_recognized s r h, step_recognized s o r h,
      countClassifyCalls_recognized s r h os]
    rfl

/-- A tick that transitions to Recognized also cancels the repeating timer
(the `clearInterval` at App.jsx lines 236-238), provided the timer id was
stored by `startScanning` — which it always is for a live timer. -/
theorem scanTick_timer_cancelled (s : AppState) (o : ClassifyOutcome)
    (h0 : s.recognizedPlace = none) (href : s.scanIntervalRef.isSome = true)
    (hr : (scanTick s o).recognizedPlace.isSome = true) :
    (scanTick s o).timerLive = false := by
  cases hrp : recognizePlace s.modelLoaded s.videoBound o with
  | none => simp [scanTick, h0, hrp] at hr
  | some result =>
    by_cases hc : confidenceThreshold < result.confidence
    · cases hpl : result.place with
      | none => simp [scanTick, h0, hrp, if_pos hc, hpl] at hr
      | some cls =>
        cases hdb : placesDatabase (normalizeKey cls) with
        | none => simp [scanTick, h0, hrp, if_pos hc, hpl, hdb] at hr
        | some pl => simp [scanTick, h0, hrp, if_pos hc, hpl, hdb, href]
    · simp [scanTick, h0, hrp, if_neg hc] at hr

/-- C2: a qualifying match is terminal for the session: the tick that sets
the recognized place also cancels the repeating timer, and from then on
every further stretch of the loop leaves the state exactly as it is and
performs zero classify calls — until an explicit stop and restart. -/
theorem c2_recognized_once (s : AppState) (o : ClassifyOutcome)
    (os : List ClassifyOutcome) (h0 : s.recognizedPlace = none)
    (href : s.scanIntervalRef.isSome = true)
    (hr : (scanTick s o).recognizedPlace.isSome = true) :
    (scanTick s o).timerLive = false ∧
    run (scanTick s o) os = scanTick s o ∧
    countClassifyCalls (scanTick s o) os = 0 := by
  obtain ⟨r, hr2⟩ := Option.isSome_iff_exists.mp hr
  exact ⟨scanTick_timer_cancelled s o h0 href hr,
    run_recognized (scanTick s o) r hr2 os,
    countClassifyCalls_recognized (scanTick s o) r hr2 os⟩

theorem c2_witness :
    (scanTick loadedState (.ok [⟨"Taxila", 9 / 10⟩])).timerLive = false ∧
    run (scanTick loadedState (.ok [⟨"Taxila", 9 / 10⟩]))
        [.ok [⟨"Taxila", 9 / 10⟩], .err] =
      scanTick loadedState (.ok [⟨"Taxila", 9 / 10⟩]) ∧
    countClassifyCalls (scanTick loadedState (.ok [⟨"Taxila", 9 / 10⟩]))
        [.ok [⟨"Taxila", 9 / 10⟩], .err] = 0 :=
  c2_recognized_once loadedState (.ok [⟨"Taxila", 9 / 10⟩])
    [.ok [⟨"Taxila", 9 / 10⟩], .err] rfl rfl (by
      have h1 : normalizeKey (jsToLower "Taxila") = "taxila" := by decide
      norm_num [scanTick, loadedState, recognizePlace, findBest,
        confidenceThreshold, h1, placesDatabase])

/-- C8: a ClassifyError in one tick is non-fatal: `recognizePlace` catches it
and returns `null` (the error does not propagate out of the tick), the tick
leaves the session state exactly unchanged, and the timer stays as it was, so
polling continues at the next tick. -/
theorem c8_classify_error_nonfatal (s : AppState) :
    recognizePlace s.modelLoaded s.videoBound .err = none ∧
    scanTick s .err = s ∧
    (scanTick s .err).timerLive = s.timerLive := by
  have h : scanTick s .err = s := by
    by_cases h0 : s.recognizedPlace.isSome
    · simp [scanTick, h0]
    · simp [scanTick, h0, recognizePlace_err]
  exact ⟨recognizePlace_err _ _, h, by rw [h]⟩

/-- Normal form of one `stopCamera` call: the stream is released, the sink is
cleared when the video element is mounted, the timer is cancelled when an id
was stored (the id itself stays in the ref), scanning/recognized/confidence
are reset, and — when speech is supported — the utterance queue is cancelled
and the speaking flag cleared. -/
theorem stopCamera_eq (s : AppState) :
    stopCamera s =
      { isScanning := false
        recognizedPlace := none
        isSpeaking := if s.speechSupported then false else s.isSpeaking
        confidence := 0
        modelLoaded := s.modelLoaded
        videoBound := s.videoBound
        videoSrcObject := if s.videoBound then none else s.videoSrcObject
        streamRef := none
        scanIntervalRef := s.scanIntervalRef
        timerLive := if s.scanIntervalRef.isSome then false else s.timerLive
        speechSupported := s.speechSupported
        speechQueue := if s.speechSupported then [] else s.speechQueue } := by
  rcases hs : s.streamRef with _ | sv <;> rcases hiv : s.scanIntervalRef with _ | iv <;>
    by_cases h2 : s.videoBound <;> by_cases h4 : s.speechSupported <;>
    simp [stopCamera, stopSpeaking, hs, hiv, h2, h4]

/-- C6: `stopCamera` is idempotent and safe from any state (including one
where nothing was acquired): a second call produces exactly the state of the
first, and after one call the session is Idle with no stream, no bound video
sink, no live timer, no recognized record, zero confidence, and no active
speech. The speech hypotheses record that the speaking flag and a live timer
only arise with speech support and a stored timer id respectively, which
holds in every reachable state. -/
theorem c6_stop_idempotent (s : AppState)
    (hsp : s.isSpeaking = true → s.speechSupported = true)
    (htm : s.timerLive = true → s.scanIntervalRef.isSome = true) :
    stopCamera (stopCamera s) = stopCamera s ∧
    (stopCamera s).isScanning = false ∧
    (stopCamera s).streamRef = none ∧
    ((stopCamera s).videoBound = true → (stopCamera s).videoSrcObject = none) ∧
    (stopCamera s).timerLive = false ∧
    (stopCamera s).recognizedPlace = none ∧
    (stopCamera s).confidence = 0 ∧
    (stopCamera s).isSpeaking = false ∧
    (s.speechSupported = true → (stopCamera s).speechQueue = []) := by
  refine ⟨?_, ?_, ?_, ?_, ?_, ?_, ?_, ?_, ?_⟩
  · by_cases h3 : s.scanIntervalRef.isSome <;> by_cases h4 : s.speechSupported <;>
      by_cases h2 : s.videoBound <;> simp [stopCamera_eq, h2, h3, h4]
  · simp [stopCamera_eq]
  · simp [stopCamera_eq]
  · intro hvb
    rw [stopCamera_eq] at hvb ⊢
    simp only at hvb
    simp [hvb]
  · by_cases h3 : s.scanIntervalRef.isSome
    · simp [stopCamera_eq, h3]
    · simp only [stopCamera_eq, h3, if_false]
      cases ht : s.timerLive
      · rfl
      · exact absurd (htm ht) h3
  · simp [stopCamera_eq]
  · simp [stopCamera_eq]
  · by_cases h4 : s.speechSupported
    · simp [stopCamera_eq, h4]
    · simp only [stopCamera_eq, h4, if_false]
      cases hsw : s.isSpeaking
      · rfl
      · exact absurd (hsp hsw) h4
  · intro h4
    simp [stopCamera_eq, h4]

theorem c6_witness :
    stopCamera (stopCamera loadedState) = stopCamera loadedState ∧
    (stopCamera loadedState).isScanning = false ∧
    (stopCamera loadedState).streamRef = none ∧
    ((stopCamera loadedState).videoBound = true →
      (stopCamera loadedState).videoSrcObject = none) ∧
    (stopCamera loadedState).timerLive = false ∧
    (stopCamera loadedState).recognizedPlace = none ∧
    (stopCamera loadedState).confidence = 0 ∧
    (stopCamera loadedState).isSpeaking = false ∧
    (loadedState.speechSupported = true →
      (stopCamera loadedState).speechQueue = []) :=
  c6_stop_idempotent loadedState (fun h => by cases h) (fun _ => rfl)

/-- Playback of the speech-synthesis queue after the last `speak` call: each
queued utterance fires its `onstart` handler (`setIsSpeaking(true)`) and then
its `onend` handler (`setIsSpeaking(false)`), so the first component lists
exactly the utterances that audibly complete, in order, and afterwards the
narration state is Idle. -/
def playAll (s : AppState) : List String × AppState :=
  (s.speechQueue, { s with speechQueue := [], isSpeaking := false })

/-- C7: `speakNarration` always preempts: it cancels whatever is queued or
playing before enqueueing the new utterance, so after `speak A` immediately
followed by `speak B` the engine's queue holds exactly `B`; only `B` audibly
completes, `A` never (re-)enters the Speaking state, and after `B` finishes
the narration state is Idle. -/
theorem c7_speech_preemption (s : AppState) (ta tb : String)
    (hsp : s.speechSupported = true) (hne : ta ≠ tb) :
    (speakNarration tb (speakNarration ta s)).speechQueue = [tb] ∧
    (playAll (speakNarration tb (speakNarration ta s))).1 = [tb] ∧
    ta ∉ (playAll (speakNarration tb (speakNarration ta s))).1 ∧
    (playAll (speakNarration tb (speakNarration ta s))).2.isSpeaking = false := by
  have hq : (speakNarration tb (speakNarration ta s)).speechQueue = [tb] := by
    simp [speakNarration, stopSpeaking, hsp]
  refine ⟨hq, ?_, ?_, rfl⟩
  · show (speakNarration tb (speakNarration ta s)).speechQueue = [tb]
    exact hq
  · show ta ∉ (speakNarration tb (speakNarration ta s)).speechQueue
    rw [hq]
    simp [hne]

theorem c7_witness :
    (speakNarration "B" (speakNarration "A" loadedState)).speechQueue = ["B"] ∧
    (playAll (speakNarration "B" (speakNarration "A" loadedState))).1 = ["B"] ∧
    "A" ∉ (playAll (speakNarration "B" (speakNarration "A" loadedState))).1 ∧
    (playAll (speakNarration "B" (speakNarration "A" loadedState))).2.isSpeaking = false :=
  c7_speech_preemption loadedState "A" "B" rfl (by decide)

/-- The only failure the metadata wait of this embedding distinguishes: the
bounded wait expiring. -/
inductive StartError where
  | timeout
deriving DecidableEq

/-- The 10000 ms bound of part_000's metadata wait (part_000 line 159). -/
def metadataTimeoutMs : Nat := 10000

/-- App.jsx lines 145-151: `await new Promise((resolve) => {
videoRef.current.onloadedmetadata = () => resolve() })` — the promise has a
resolve handler only, no reject path and no timer. `arrival` is the
metadata arrival time in ms after the wait starts (`none` when metadata never
arrives); the result is the settled value, `none` when the promise never
settles and the enclosing `startCamera` remains suspended forever. -/
def awaitMetadataApp (arrival : Option Nat) : Option (Except StartError Unit) :=
  arrival.map fun _ => Except.ok ()

/-- part_000 lines 148-160: the same wait additionally rejects through
`setTimeout(() => reject(new Error('Video loading timeout')), 10000)`, so it
always settles — ok when metadata arrives before the 10000 ms timer fires,
a timeout rejection otherwise. -/
def awaitMetadataPart (arrival : Option Nat) : Except StartError Unit :=
  match arrival with
  | some t => if t < metadataTimeoutMs then Except.ok () else Except.error StartError.timeout
  | none => Except.error StartError.timeout

/-- Continuation of part_000's `startCamera` after the stream is acquired
(lines 148-177): a rejected metadata wait propagates to the outer try/catch,
which only sets a status message — `setIsScanning(true)` and `startScanning`
are never reached; on a resolved wait the session starts scanning (the
subsequent `play()` is modelled as succeeding). -/
def startAfterStreamPart (s : AppState) (arrival : Option Nat) (timerId : Nat) :
    AppState :=
  match awaitMetadataPart arrival with
  | Except.error _ => s
  | Except.ok _ => startScanning timerId { s with isScanning := true }

/-- C9, counterexample: in the `src/src/App.jsx` variant the claim "if video
metadata never arrives, start() fails with a Timeout after a bounded 10 s
wait rather than waiting forever" is false: with `arrival = none` the
metadata promise never settles at all — in particular it never settles with
a timeout error — and the start sequence waits forever. -/
theorem c9_counterexample :
    awaitMetadataApp none = none ∧
    ¬ awaitMetadataApp none = some (Except.error StartError.timeout) :=
  ⟨rfl, by simp [awaitMetadataApp]⟩

/-- C9 (amended): the bounded metadata wait exists only in the `part_000`
variant: there, when metadata never arrives, the wait settles with a Timeout
rejection after the 10000 ms bound, the start sequence aborts leaving the
state untouched, and scanning never begins; the `src/src/App.jsx` variant has
no bounded wait — its metadata promise never settles, so start neither fails
nor proceeds. -/
theorem c9_timeout_bounded (s : AppState) (tid : Nat) (arrival : Option Nat)
    (hnever : arrival = none) (hidle : s.timerLive = false) :
    metadataTimeoutMs = 10000 ∧
    awaitMetadataPart arrival = Except.error StartError.timeout ∧
    startAfterStreamPart s arrival tid = s ∧
    (startAfterStreamPart s arrival tid).timerLive = false ∧
    awaitMetadataApp arrival = none := by
  subst hnever
  exact ⟨rfl, rfl, rfl, hidle, rfl⟩

/-- The state before any session was started: nothing acquired, nothing
scheduled. -/
def idleState : AppState where
  isScanning := false
  recognizedPlace := none
  isSpeaking := false
  confidence := 0
  modelLoaded := false
  videoBound := true
  videoSrcObject := none
  streamRef := none
  scanIntervalRef := none
  timerLive := false
  speechSupported := true
  speechQueue := []

theorem c9_witness :
    metadataTimeoutMs = 10000 ∧
    awaitMetadataPart none = Except.error StartError.timeout ∧
    startAfterStreamPart idleState none 1 = idleState ∧
    (startAfterStreamPart idleState none 1).timerLive = false ∧
    awaitMetadataApp none = none :=
  c9_timeout_bounded idleState 1 none rfl rfl

/-- The scan cadence: `setInterval(..., 2000)` (App.jsx line 246). -/
def scanIntervalMs : Nat := 2000

/-- `startScanning` registers its callback with `setInterval`, so the browser
fires invocation `i` (for `i ≥ 1`) at `2000 * i` ms after registration,
independently of whether the promise returned by an earlier `async`
invocation has settled. -/
def tickStartTime (i : Nat) : Nat := scanIntervalMs * i

/-- Tick `i`'s classification call — started at the tick's start (App.jsx
line 228) — is still pending at time `t` when `t` lies within `latency i` ms
of that start. -/
def classifyPendingAt (latency : Nat → Nat) (i t : Nat) : Prop :=
  tickStartTime i ≤ t ∧ t < tickStartTime i + latency i

/-- Whether the interval callback (App.jsx lines 226-246) starts a
classification on a given tick: it consults only the captured
`recognizedPlace` guard (line 227) and `recognizePlace`'s null checks
(line 193); no flag records whether an earlier tick's classification is
still in flight. -/
def tickStartsClassify (recognizedCaptured modelLoaded videoBound : Bool) : Bool :=
  !recognizedCaptured && (modelLoaded && videoBound)

/-- C3: the scan loop does NOT enforce strictly sequential ticks. With a
classification latency of 3000 ms (longer than the 2000 ms cadence) and
nothing recognized yet, tick 2 fires at t = 4000 ms and — its guard passing,
since no in-flight flag exists — starts a classification while tick 1's
classification (pending on [2000, 5000)) is still pending. -/
theorem c3_overlapping_ticks :
    tickStartsClassify false true true = true ∧
    classifyPendingAt (fun _ => 3000) 1 (tickStartTime 2) ∧
    tickStartTime 2 < tickStartTime 1 + 3000 :=
  ⟨rfl,
    by norm_num [classifyPendingAt, tickStartTime, scanIntervalMs],
    by norm_num [tickStartTime, scanIntervalMs]⟩

end ARGuide
